import Mathlib

/-!
Verification development for the hipSPARSE generic API headers
`hipsparse_dense2sparse.h`, `hipsparse_sddmm.h` and `hipsparse_spvv.h`.

The repository excerpt contains only the public C prototypes together with
their doxygen contracts; no function body is present.  The definitions below
therefore fall into two groups:

* a transcription of the declared API surface (names, families, phases,
  whether a routine takes the user scratch buffer or writes the queried
  buffer size, and the fact that every declaration is body-less); and
* behavioural models, each marked `Modelled from the spec:`, which translate
  the documented mathematical contract (the SpVV reference loop, the SDDMM
  update formula, the dense-to-sparse conversion protocol, and the documented
  status-code conditions) into executable Lean functions.
-/

namespace HipsparseSpec

/-- Status codes of the hipSPARSE routines that appear in the documented
`\retval` lists of the three headers, plus the resource failure used to model
a call made with a scratch buffer smaller than the queried size. -/
inductive HStatus where
  | success
  | invalidValue
  | notSupported
  | insufficientResources
deriving DecidableEq, Repr

/-- Modelled from the spec: the C enumeration `hipsparseOperation_t` is not
part of the excerpt; operations are modelled as numeric codes, any code
other than the three named ones being an incorrect value. -/
def opNonTranspose : Nat := 0

/-- Transpose operation code. -/
def opTranspose : Nat := 1

/-- Conjugate-transpose operation code. -/
def opConjTranspose : Nat := 2

/-- A code is a valid `hipsparseOperation_t` value when it is one of the
three named operation codes. -/
def opValid (op : Nat) : Prop := op ≤ 2

instance (op : Nat) : Decidable (opValid op) := by unfold opValid; infer_instance

/-- The three routine families declared in the excerpt. -/
inductive ApiFamily where
  | denseToSparse
  | sddmm
  | spvv
deriving DecidableEq, Repr

/-- The phases of the documented call protocols: query the scratch-buffer
size, run the analysis/preprocess pass, perform the final computation. -/
inductive ApiPhase where
  | querySize
  | analysis
  | compute
deriving DecidableEq, Repr

/-- One C function prototype of the headers: its name, which family and
protocol phase it belongs to, whether it takes the user scratch buffer
(`externalBuffer`/`tempBuffer` parameter), whether it writes the queried
buffer size (`pBufferSizeInBytes` out-parameter), and whether the
declaration carries a body in the excerpt. -/
structure ApiDecl where
  declName : String
  family : ApiFamily
  phase : ApiPhase
  takesBuffer : Bool
  writesSize : Bool
  hasBody : Bool
deriving DecidableEq, Repr

/-- Transcription of every function declared in the three headers
(`hipsparse_dense2sparse.h`, `hipsparse_sddmm.h`, `hipsparse_spvv.h`).
Each name is declared twice in the C source under mutually exclusive
CUDART version guards with the same name and role; it appears once here.
No declaration in the headers has a body. -/
def hipsparseHeaderDecls : List ApiDecl :=
  [⟨"hipsparseDenseToSparse_bufferSize", .denseToSparse, .querySize, false, true, false⟩,
   ⟨"hipsparseDenseToSparse_analysis", .denseToSparse, .analysis, true, false, false⟩,
   ⟨"hipsparseDenseToSparse_convert", .denseToSparse, .compute, true, false, false⟩,
   ⟨"hipsparseSDDMM_bufferSize", .sddmm, .querySize, false, true, false⟩,
   ⟨"hipsparseSDDMM_preprocess", .sddmm, .analysis, true, false, false⟩,
   ⟨"hipsparseSDDMM", .sddmm, .compute, true, false, false⟩,
   ⟨"hipsparseSpVV_bufferSize", .spvv, .querySize, false, true, false⟩,
   ⟨"hipsparseSpVV", .spvv, .compute, true, false, false⟩]

/-- Modelled from the spec: the call sequence each header documents for its
family.  The dense-to-sparse and SDDMM docs describe three steps
(buffer-size query, then analysis/preprocess, then convert/compute); the
SpVV doc states that performing the operation "involves two steps"
(buffer-size query, then the computation). -/
def documentedCallOrder : ApiFamily → List ApiPhase
  | .denseToSparse => [.querySize, .analysis, .compute]
  | .sddmm => [.querySize, .analysis, .compute]
  | .spvv => [.querySize, .compute]

/-! ## SpVV: sparse vector - dense vector inner dot product -/

variable {α : Type}

/-- Modelled from the spec: the `op(x)` applied to each sparse-vector value,
from the `hipsparseSpVV` documentation: the identity for
`HIPSPARSE_OPERATION_NON_TRANSPOSE` and complex conjugation for
`HIPSPARSE_OPERATION_CONJUGATE_TRANSPOSE`. -/
def spvvTerm [CommRing α] [StarRing α] (opX : Nat) (a : α) : α :=
  if opX = opConjTranspose then star a else a

/-- Modelled from the spec: the reference loop in the `hipsparseSpVV`
documentation (`result = 0; for(i = 0; i < nnz; ++i) result +=
x_val[i] * y[x_ind[i]];`), with `op` applied to the sparse values as in the
documented formula `result := op(x) . y`.  The implementation of
`hipsparseSpVV` is not part of the excerpt. -/
def spvv [CommRing α] [StarRing α] (opX nnz : Nat) (xval : Nat → α)
    (xind : Nat → Nat) (y : Nat → α) : α :=
  (List.range nnz).foldl (fun acc i => acc + spvvTerm opX (xval i) * y (xind i)) 0

/-- Modelled from the spec: the status behaviour of `hipsparseSpVV_bufferSize`
per its documented retvals.  `required` stands for the library-internal
buffer requirement; the routine writes it through `pBufferSizeInBytes`.
Pointer arguments are modelled by validity flags. -/
def spvvBufferSizeModel (handleOk vecXOk vecYOk resultOk pOutOk ctSupported : Bool)
    (required : Nat) : HStatus × Option Nat :=
  if handleOk && vecXOk && vecYOk && resultOk && pOutOk then
    if ctSupported then (.success, some required) else (.notSupported, none)
  else (.invalidValue, none)

/-- Modelled from the spec: the full `hipsparseSpVV` call, combining the
documented retval conditions with the documented dot-product computation.
The result is stored (returned as `some`) only on success; a call whose
scratch buffer is smaller than the queried size is modelled as a resource
failure, since the docs make the queried size a requirement. -/
def spvvModel [CommRing α] [StarRing α]
    (handleOk vecXOk vecYOk resultOk bufOk ctSupported : Bool)
    (required bufSize : Nat) (opX nnz : Nat) (xval : Nat → α)
    (xind : Nat → Nat) (y : Nat → α) : HStatus × Option α :=
  if handleOk && vecXOk && vecYOk && resultOk && bufOk then
    if ctSupported then
      if required ≤ bufSize then (.success, some (spvv opX nnz xval xind y))
      else (.insufficientResources, none)
    else (.notSupported, none)
  else (.invalidValue, none)

/-! ## SDDMM: sampled dense-dense matrix multiplication -/

/-- A CSR sparse matrix as handed to `hipsparseSDDMM` through its
descriptor: dimensions, number of stored entries, and the three device
arrays, modelled as functions out of position indices. -/
structure CsrMatrix (α : Type) where
  rows : Nat
  cols : Nat
  nnz : Nat
  rowPtr : Nat → Nat
  colInd : Nat → Nat
  val : Nat → α

/-- Walk the row-pointer array to find the row containing global position
`p`: starting from row `i`, return the first row `r` with
`p < rowPtr (r+1)`, examining at most `fuel` rows. -/
def rowOfGo (rowPtr : Nat → Nat) (p : Nat) : Nat → Nat → Nat
  | 0, i => i
  | fuel + 1, i => if p < rowPtr (i + 1) then i else rowOfGo rowPtr p fuel (i + 1)

/-- The row of the CSR matrix `C` that contains stored-entry position `p`. -/
def rowOfC (C : CsrMatrix α) (p : Nat) : Nat :=
  rowOfGo C.rowPtr p C.rows 0

/-- The stored positions of `C` that lie at coordinates `(i, j)`: the
sparsity pattern of `C` at `(i, j)`. -/
def storedPositions (C : CsrMatrix α) (i j : Nat) : Finset Nat :=
  (Finset.range C.nnz).filter (fun p => rowOfC C p = i ∧ C.colInd p = j)

/-- The dense matrix represented by a CSR matrix: the sum of the stored
values at `(i, j)`, and `0` at coordinates outside the sparsity pattern. -/
def csrToMatrix [CommRing α] (C : CsrMatrix α) (i j : Nat) : α :=
  ∑ p in storedPositions C i j, C.val p

/-- Modelled from the spec: `op(A)` of the SDDMM documentation — the matrix
itself for `HIPSPARSE_OPERATION_NON_TRANSPOSE` and its transpose for
`HIPSPARSE_OPERATION_TRANSPOSE`. -/
def opApp (op : Nat) (M : Nat → Nat → α) : Nat → Nat → α :=
  if op = opTranspose then fun i j => M j i else M

/-- The `(i, j)` entry of the dense product `op(A) * op(B)` with inner
dimension `k`. -/
def sddmmDot [CommRing α] (opA opB : Nat) (k : Nat) (A B : Nat → Nat → α)
    (i j : Nat) : α :=
  ∑ l in Finset.range k, opApp opA A i l * opApp opB B l j

/-- Modelled from the spec: the SDDMM update
`C := alpha (op(A) * op(B)) o spy(C) + beta C` of the `hipsparseSDDMM`
documentation, applied at the sparsity pattern of `C`: each stored value at
position `p` (row `rowOfC C p`, column `colInd p`) is replaced by
`alpha * (op(A) * op(B))_(i,j) + beta * old`.  The kernel implementation is
not part of the excerpt. -/
def sddmm [CommRing α] (opA opB : Nat) (alpha beta : α) (k : Nat)
    (A B : Nat → Nat → α) (C : CsrMatrix α) : CsrMatrix α :=
  { C with
    val := fun p =>
      alpha * sddmmDot opA opB k A B (rowOfC C p) (C.colInd p) + beta * C.val p }

/-- Modelled from the spec: the status behaviour of `hipsparseSDDMM_bufferSize`
per its documented retvals: invalid pointers or an incorrect `opA`/`opB`
value give `HIPSPARSE_STATUS_INVALID_VALUE`; a conjugate-transpose operation
gives `HIPSPARSE_STATUS_NOT_SUPPORTED`; otherwise the routine succeeds and
writes the library-internal requirement `required`. -/
def sddmmBufferSizeModel (handleOk alphaOk aOk bOk betaOk cOk pOutOk : Bool)
    (opA opB : Nat) (required : Nat) : HStatus × Option Nat :=
  if handleOk && alphaOk && aOk && bOk && betaOk && cOk && pOutOk then
    if opValid opA ∧ opValid opB then
      if opA = opConjTranspose ∨ opB = opConjTranspose then (.notSupported, none)
      else (.success, some required)
    else (.invalidValue, none)
  else (.invalidValue, none)

/-- Modelled from the spec: the status behaviour of `hipsparseSDDMM_preprocess`
per its documented retvals; the preprocessing itself has no documented
user-visible effect. -/
def sddmmPreprocessModel (handleOk alphaOk aOk bOk betaOk cOk bufOk : Bool)
    (opA opB : Nat) (required bufSize : Nat) : HStatus :=
  if handleOk && alphaOk && aOk && bOk && betaOk && cOk && bufOk then
    if opValid opA ∧ opValid opB then
      if opA = opConjTranspose ∨ opB = opConjTranspose then .notSupported
      else if required ≤ bufSize then .success
      else .insufficientResources
    else .invalidValue
  else .invalidValue

/-- Modelled from the spec: the full `hipsparseSDDMM` call, combining the
documented retval conditions with the documented update formula.  The sparse
matrix `C` is returned unchanged on every non-success status. -/
def sddmmModel [CommRing α] (handleOk alphaOk aOk bOk betaOk cOk bufOk : Bool)
    (opA opB : Nat) (alpha beta : α) (k : Nat) (A B : Nat → Nat → α)
    (C : CsrMatrix α) (required bufSize : Nat) : HStatus × CsrMatrix α :=
  if handleOk && alphaOk && aOk && bOk && betaOk && cOk && bufOk then
    if opValid opA ∧ opValid opB then
      if opA = opConjTranspose ∨ opB = opConjTranspose then (.notSupported, C)
      else if required ≤ bufSize then (.success, sddmm opA opB alpha beta k A B C)
      else (.insufficientResources, C)
    else (.invalidValue, C)
  else (.invalidValue, C)

/-! ## Dense-to-sparse conversion -/

/-- The non-zero entries of row `i` of the dense `m x n` matrix `A`, as
`(column, value)` pairs in column order. -/
def rowNonzeros [Zero α] [DecidableEq α] (n : Nat) (A : Nat → Nat → α)
    (i : Nat) : List (Nat × α) :=
  (List.range n).filterMap (fun j => if A i j = 0 then none else some (j, A i j))

/-- The non-zero entries of column `j` of the dense `m x n` matrix `A`, as
`(row, value)` pairs in row order. -/
def colNonzeros [Zero α] [DecidableEq α] (m : Nat) (A : Nat → Nat → α)
    (j : Nat) : List (Nat × α) :=
  (List.range m).filterMap (fun i => if A i j = 0 then none else some (i, A i j))

/-- All non-zero entries of `A` as `(row, column, value)` triples in
row-major order. -/
def denseNonzeros [Zero α] [DecidableEq α] (m n : Nat)
    (A : Nat → Nat → α) : List (Nat × Nat × α) :=
  (List.range m).flatMap (fun i => (rowNonzeros n A i).map (fun q => (i, q.1, q.2)))

/-- All non-zero entries of `A` as `(row, column, value)` triples in
column-major order. -/
def denseNonzerosByCol [Zero α] [DecidableEq α] (m n : Nat)
    (A : Nat → Nat → α) : List (Nat × Nat × α) :=
  (List.range n).flatMap (fun j => (colNonzeros m A j).map (fun q => (q.1, j, q.2)))

/-- The number of non-zero entries of the dense `m x n` matrix `A`. -/
def countNonzeros [Zero α] [DecidableEq α] (m n : Nat)
    (A : Nat → Nat → α) : Nat :=
  ∑ i in Finset.range m, ∑ j in Finset.range n, if A i j = 0 then 0 else 1

/-- The number of elements contributed by groups `0, ..., i-1` of the
group-valued function `f`. -/
def groupLen {β : Type} (f : Nat → List β) (i : Nat) : Nat :=
  ((List.range i).flatMap f).length

/-- The compressed pointer array of a grouping: entry `i` is the total size
of the groups before group `i`, for `i = 0, ..., m`. -/
def ptrListOf {β : Type} (f : Nat → List β) (m : Nat) : List Nat :=
  (List.range (m + 1)).map (groupLen f)

/-- Modelled from the spec: the CSR row-pointer array written by
`hipsparseDenseToSparse_convert` (implementation not in the excerpt). -/
def csrRowPtrOf [Zero α] [DecidableEq α] (m n : Nat) (A : Nat → Nat → α) :
    List Nat :=
  ptrListOf (rowNonzeros n A) m

/-- Modelled from the spec: the row-index array written for a COO target. -/
def nzRowIndOf [Zero α] [DecidableEq α] (m n : Nat) (A : Nat → Nat → α) :
    List Nat :=
  (denseNonzeros m n A).map (fun t => t.1)

/-- Modelled from the spec: the column-index array written for a CSR or COO
target (row-major entry order). -/
def nzColIndOf [Zero α] [DecidableEq α] (m n : Nat) (A : Nat → Nat → α) :
    List Nat :=
  (denseNonzeros m n A).map (fun t => t.2.1)

/-- Modelled from the spec: the values array written for a CSR or COO
target (row-major entry order). -/
def nzValOf [Zero α] [DecidableEq α] (m n : Nat) (A : Nat → Nat → α) :
    List α :=
  (denseNonzeros m n A).map (fun t => t.2.2)

/-- Modelled from the spec: the CSC column-pointer array written by
`hipsparseDenseToSparse_convert` for a CSC target. -/
def cscColPtrOf [Zero α] [DecidableEq α] (m n : Nat) (A : Nat → Nat → α) :
    List Nat :=
  ptrListOf (colNonzeros m A) n

/-- Modelled from the spec: the row-index array written for a CSC target
(column-major entry order). -/
def cscRowIndOf [Zero α] [DecidableEq α] (m n : Nat) (A : Nat → Nat → α) :
    List Nat :=
  (denseNonzerosByCol m n A).map (fun t => t.1)

/-- Modelled from the spec: the values array written for a CSC target
(column-major entry order). -/
def cscValOf [Zero α] [DecidableEq α] (m n : Nat) (A : Nat → Nat → α) :
    List α :=
  (denseNonzerosByCol m n A).map (fun t => t.2.2)

/-- Read a CSR triple (`rowPtr`, `colInd`, `val`) back as the list of its
`(row, column, value)` entries: for each row `i`, the slice of positions
`rowPtr[i], ..., rowPtr[i+1] - 1`. -/
def csrDecode (m : Nat) (rowPtr colInd : List Nat) (v : List α) :
    List (Nat × Nat × α) :=
  (List.range m).flatMap (fun i =>
    (((colInd.zip v).drop (rowPtr.getD i 0)).take
        (rowPtr.getD (i + 1) 0 - rowPtr.getD i 0)).map (fun q => (i, q.1, q.2)))

/-- Read a CSC triple (`colPtr`, `rowInd`, `val`) back as the list of its
`(row, column, value)` entries. -/
def cscDecode (n : Nat) (colPtr rowInd : List Nat) (v : List α) :
    List (Nat × Nat × α) :=
  (List.range n).flatMap (fun j =>
    (((rowInd.zip v).drop (colPtr.getD j 0)).take
        (colPtr.getD (j + 1) 0 - colPtr.getD j 0)).map (fun q => (q.1, j, q.2)))

/-- Read a COO triple (`rowInd`, `colInd`, `val`) back as the list of its
`(row, column, value)` entries. -/
def cooDecode (rowInd colInd : List Nat) (v : List α) : List (Nat × Nat × α) :=
  rowInd.zip (colInd.zip v)

/-- Modelled from the spec: the status behaviour of
`hipsparseDenseToSparse_bufferSize` per its documented retvals, writing the
library-internal requirement `required`. -/
def denseToSparseBufferSizeModel (handleOk matAOk matBOk pOutOk : Bool)
    (required : Nat) : HStatus × Option Nat :=
  if handleOk && matAOk && matBOk && pOutOk then (.success, some required)
  else (.invalidValue, none)

/-- Modelled from the spec: `hipsparseDenseToSparse_analysis` per its
documented contract: on success it determines the number of non-zeros of the
dense matrix and stores it in the sparse descriptor (the stored count is
returned as `some`). -/
def denseToSparseAnalysisModel [Zero α] [DecidableEq α]
    (handleOk matAOk matBOk bufOk : Bool) (required bufSize : Nat)
    (m n : Nat) (A : Nat → Nat → α) : HStatus × Option Nat :=
  if handleOk && matAOk && matBOk && bufOk then
    if required ≤ bufSize then (.success, some (countNonzeros m n A))
    else (.insufficientResources, none)
  else (.invalidValue, none)

/-- Modelled from the spec: the status behaviour of
`hipsparseDenseToSparse_convert` per its documented retvals. -/
def denseToSparseConvertModel (handleOk matAOk matBOk bufOk : Bool)
    (required bufSize : Nat) : HStatus :=
  if handleOk && matAOk && matBOk && bufOk then
    if required ≤ bufSize then .success
    else .insufficientResources
  else .invalidValue

/-! ## Helper lemmas -/

theorem foldl_range_add {M : Type} [AddCommMonoid M] (f : Nat → M) (c : M)
    (n : Nat) :
    (List.range n).foldl (fun acc i => acc + f i) c = c + ∑ i in Finset.range n, f i := by
  induction n generalizing c with
  | zero => simp
  | succ n ih =>
    rw [List.range_succ, List.foldl_append, ih, Finset.sum_range_succ]
    simp [add_assoc]

theorem rowOfGo_spec (rowPtr : Nat → Nat) (p : Nat) :
    ∀ fuel i : Nat, rowPtr i ≤ p → p < rowPtr (i + fuel) →
      rowPtr (rowOfGo rowPtr p fuel i) ≤ p ∧ p < rowPtr (rowOfGo rowPtr p fuel i + 1) := by
  intro fuel
  induction fuel with
  | zero =>
    intro i h1 h2
    simp only [Nat.add_zero] at h2
    omega
  | succ fuel ih =>
    intro i h1 h2
    simp only [rowOfGo]
    split
    · next h => exact ⟨h1, h⟩
    · next h =>
      have h2' : p < rowPtr (i + 1 + fuel) := by
        have he : i + 1 + fuel = i + (fuel + 1) := by omega
        rw [he]; exact h2
      exact ih (i + 1) (Nat.le_of_not_lt h) h2'

theorem flatMap_congr_mem {γ β : Type} {l : List γ} {f g : γ → List β}
    (h : ∀ x ∈ l, f x = g x) : l.flatMap f = l.flatMap g := by
  induction l with
  | nil => rfl
  | cons a l ih =>
    simp only [List.flatMap_cons]
    rw [h a (by simp), ih (fun x hx => h x (by simp [hx]))]

theorem groupLen_succ {β : Type} (f : Nat → List β) (i : Nat) :
    groupLen f (i + 1) = groupLen f i + (f i).length := by
  simp [groupLen, List.range_succ, List.flatMap_append]

theorem ptrListOf_getD {β : Type} (f : Nat → List β) (m i : Nat) (h : i ≤ m) :
    (ptrListOf f m).getD i 0 = groupLen f i := by
  simp [ptrListOf, List.getD_eq_getElem?_getD, List.getElem?_map,
    List.getElem?_range (Nat.lt_succ_of_le h)]

theorem slice_flatMap_range {β : Type} (f : Nat → List β) (m i : Nat) (h : i < m) :
    (((List.range m).flatMap f).drop (groupLen f i)).take
        (groupLen f (i + 1) - groupLen f i) = f i := by
  have hm : m = (i + 1) + (m - (i + 1)) := by omega
  rw [groupLen_succ, Nat.add_sub_cancel_left]
  conv_lhs => rw [hm]
  rw [List.range_add, List.flatMap_append, List.range_succ, List.flatMap_append,
    List.append_assoc,
    List.drop_left' (show ((List.range i).flatMap f).length = groupLen f i from rfl)]
  have h1 : ([i] : List Nat).flatMap f = f i := by simp
  rw [h1]
  exact List.take_left' rfl

theorem zip_nzInd_nzVal [Zero α] [DecidableEq α] (m n : Nat) (A : Nat → Nat → α) :
    (nzColIndOf m n A).zip (nzValOf m n A) = (List.range m).flatMap (rowNonzeros n A) := by
  unfold nzColIndOf nzValOf
  rw [List.zip_map']
  unfold denseNonzeros
  rw [List.map_flatMap]
  apply flatMap_congr_mem
  intro i _
  rw [List.map_map]
  have h : ((fun t : Nat × Nat × α => (t.2.1, t.2.2)) ∘
      fun q : Nat × α => (i, q.1, q.2)) = id := by
    funext q; rfl
  rw [h, List.map_id]

theorem zip_cscInd_cscVal [Zero α] [DecidableEq α] (m n : Nat) (A : Nat → Nat → α) :
    (cscRowIndOf m n A).zip (cscValOf m n A) = (List.range n).flatMap (colNonzeros m A) := by
  unfold cscRowIndOf cscValOf
  rw [List.zip_map']
  unfold denseNonzerosByCol
  rw [List.map_flatMap]
  apply flatMap_congr_mem
  intro j _
  rw [List.map_map]
  have h : ((fun t : Nat × Nat × α => (t.1, t.2.2)) ∘
      fun q : Nat × α => (q.1, j, q.2)) = id := by
    funext q; rfl
  rw [h, List.map_id]

theorem csrDecode_encoders [Zero α] [DecidableEq α] (m n : Nat) (A : Nat → Nat → α) :
    csrDecode m (csrRowPtrOf m n A) (nzColIndOf m n A) (nzValOf m n A) =
      denseNonzeros m n A := by
  unfold csrDecode csrRowPtrOf
  conv_rhs => rw [denseNonzeros]
  apply flatMap_congr_mem
  intro i hi
  have him : i < m := List.mem_range.mp hi
  rw [zip_nzInd_nzVal, ptrListOf_getD _ _ _ (Nat.le_of_lt him),
    ptrListOf_getD _ _ _ him, slice_flatMap_range _ _ _ him]

theorem cscDecode_encoders [Zero α] [DecidableEq α] (m n : Nat) (A : Nat → Nat → α) :
    cscDecode n (cscColPtrOf m n A) (cscRowIndOf m n A) (cscValOf m n A) =
      denseNonzerosByCol m n A := by
  unfold cscDecode cscColPtrOf
  conv_rhs => rw [denseNonzerosByCol]
  apply flatMap_congr_mem
  intro j hj
  have hjn : j < n := List.mem_range.mp hj
  rw [zip_cscInd_cscVal, ptrListOf_getD _ _ _ (Nat.le_of_lt hjn),
    ptrListOf_getD _ _ _ hjn, slice_flatMap_range _ _ _ hjn]

theorem cooDecode_encoders [Zero α] [DecidableEq α] (m n : Nat) (A : Nat → Nat → α) :
    cooDecode (nzRowIndOf m n A) (nzColIndOf m n A) (nzValOf m n A) =
      denseNonzeros m n A := by
  unfold cooDecode nzRowIndOf nzColIndOf nzValOf
  rw [List.zip_map']
  have h : (fun t : Nat × Nat × α => (t.2.1, t.2.2)) = Prod.snd := by
    funext t; rfl
  rw [h, List.zip_map']
  simp

theorem length_rowNonzeros [Zero α] [DecidableEq α] (n : Nat) (A : Nat → Nat → α)
    (i : Nat) :
    (rowNonzeros n A i).length = ∑ j in Finset.range n, if A i j = 0 then 0 else 1 := by
  induction n with
  | zero => simp [rowNonzeros]
  | succ n ih =>
    rw [show rowNonzeros (n + 1) A i =
        (List.range (n + 1)).filterMap
          (fun j => if A i j = 0 then none else some (j, A i j)) from rfl,
      List.range_succ, List.filterMap_append, List.length_append,
      show (List.range n).filterMap
          (fun j => if A i j = 0 then none else some (j, A i j)) =
        rowNonzeros n A i from rfl,
      ih, Finset.sum_range_succ]
    by_cases h : A i n = 0 <;> simp [h]

theorem length_denseNonzeros [Zero α] [DecidableEq α] (m n : Nat)
    (A : Nat → Nat → α) :
    (denseNonzeros m n A).length = countNonzeros m n A := by
  induction m with
  | zero => simp [denseNonzeros, countNonzeros]
  | succ m ih =>
    rw [show denseNonzeros (m + 1) n A =
        (List.range (m + 1)).flatMap
          (fun i => (rowNonzeros n A i).map (fun q => (i, q.1, q.2))) from rfl,
      List.range_succ, List.flatMap_append, List.length_append,
      show (List.range m).flatMap
          (fun i => (rowNonzeros n A i).map (fun q => (i, q.1, q.2))) =
        denseNonzeros m n A from rfl, ih]
    have h1 : (([m] : List Nat).flatMap
        (fun i => (rowNonzeros n A i).map (fun q => (i, q.1, q.2)))).length =
        (rowNonzeros n A m).length := by simp
    rw [h1, length_rowNonzeros]
    conv_rhs => rw [countNonzeros, Finset.sum_range_succ]
    rfl

theorem mem_denseNonzeros [Zero α] [DecidableEq α] {m n : Nat}
    {A : Nat → Nat → α} {t : Nat × Nat × α} :
    t ∈ denseNonzeros m n A ↔
      t.1 < m ∧ t.2.1 < n ∧ A t.1 t.2.1 ≠ 0 ∧ t.2.2 = A t.1 t.2.1 := by
  obtain ⟨i, j, v⟩ := t
  simp only [denseNonzeros, rowNonzeros, List.mem_flatMap, List.mem_map,
    List.mem_filterMap, List.mem_range]
  constructor
  · rintro ⟨i', hi', q, ⟨j', hj', hq⟩, heq⟩
    split at hq
    · exact absurd hq (by simp)
    · next hnz =>
      obtain rfl := Option.some.inj hq
      injection heq with h1 h23
      injection h23 with h2 h3
      subst h1; subst h2; subst h3
      exact ⟨hi', hj', hnz, rfl⟩
  · rintro ⟨hi, hj, hnz, rfl⟩
    exact ⟨i, hi, (j, A i j), ⟨j, hj, by rw [if_neg hnz]⟩, rfl⟩

theorem mem_denseNonzerosByCol [Zero α] [DecidableEq α] {m n : Nat}
    {A : Nat → Nat → α} {t : Nat × Nat × α} :
    t ∈ denseNonzerosByCol m n A ↔
      t.1 < m ∧ t.2.1 < n ∧ A t.1 t.2.1 ≠ 0 ∧ t.2.2 = A t.1 t.2.1 := by
  obtain ⟨i, j, v⟩ := t
  simp only [denseNonzerosByCol, colNonzeros, List.mem_flatMap, List.mem_map,
    List.mem_filterMap, List.mem_range]
  constructor
  · rintro ⟨j', hj', q, ⟨i', hi', hq⟩, heq⟩
    split at hq
    · exact absurd hq (by simp)
    · next hnz =>
      obtain rfl := Option.some.inj hq
      injection heq with h1 h23
      injection h23 with h2 h3
      subst h1; subst h2; subst h3
      exact ⟨hi', hj', hnz, rfl⟩
  · rintro ⟨hi, hj, hnz, rfl⟩
    exact ⟨j, hj, (i, A i j), ⟨i, hi, by rw [if_neg hnz]⟩, rfl⟩

theorem storedPositions_sddmm [CommRing α] (opA opB : Nat) (a b : α) (k : Nat)
    (A B : Nat → Nat → α) (C : CsrMatrix α) (i j : Nat) :
    storedPositions (sddmm opA opB a b k A B C) i j = storedPositions C i j := rfl

/-! ## Claim theorems -/

/-- C2: for every sparse vector `x` (`nnz` entries, indices `xind`, values
`xval`) and dense vector `y`, `hipsparseSpVV` with
`opX == HIPSPARSE_OPERATION_NON_TRANSPOSE`, called with valid pointers, a
supported compute type and a scratch buffer at least the queried size,
stores into `result` the dot product of the documented reference loop:
`sum over i in [0, nnz) of x_val[i] * y[x_ind[i]]`. -/
theorem spvv_nonTranspose_dot [CommRing α] [StarRing α] (nnz : Nat)
    (xval : Nat → α) (xind : Nat → Nat) (y : Nat → α) (required bufSize : Nat)
    (hbuf : required ≤ bufSize) (opX : Nat) (hop : opX = opNonTranspose) :
    spvvModel true true true true true true required bufSize opX nnz xval xind y =
      (HStatus.success, some (∑ i in Finset.range nnz, xval i * y (xind i))) := by
  subst hop
  unfold spvvModel
  have h5 : ((true && true && true && true && true) : Bool) = true := rfl
  rw [if_pos rfl, if_pos h5, if_pos hbuf]
  unfold spvv
  rw [foldl_range_add, zero_add]
  have h : ∀ i ∈ Finset.range nnz,
      spvvTerm opNonTranspose (xval i) * y (xind i) = xval i * y (xind i) := by
    intro i _
    simp [spvvTerm, opNonTranspose, opConjTranspose]
  rw [Finset.sum_congr rfl h]

/-- Witness for C2: the example of the `hipsparseSpVV` documentation
(`x_ind = [0,3,5]`, `x_val = [1,2,3]`, `y = [1,...,9]`) gives
`1*1 + 2*4 + 3*6 = 27`. -/
theorem spvv_nonTranspose_dot_witness :
    spvvModel (α := ℤ) true true true true true true 4 8 0 3
        (fun i => ([1, 2, 3] : List ℤ).getD i 0)
        (fun i => ([0, 3, 5] : List Nat).getD i 0)
        (fun i => ([1, 2, 3, 4, 5, 6, 7, 8, 9] : List ℤ).getD i 0) =
      (HStatus.success, some 27) := by
  rw [spvv_nonTranspose_dot 3 (fun i => ([1, 2, 3] : List ℤ).getD i 0)
    (fun i => ([0, 3, 5] : List Nat).getD i 0)
    (fun i => ([1, 2, 3, 4, 5, 6, 7, 8, 9] : List ℤ).getD i 0) 4 8
    (by decide) 0 rfl]
  decide

/-- C10: for `hipsparseSpVV` with
`opX == HIPSPARSE_OPERATION_CONJUGATE_TRANSPOSE` the result is
`sum over i in [0, nnz) of conj(x_val[i]) * y[x_ind[i]]`, and whenever
conjugation is trivial (every real-valued data type) this coincides with the
`HIPSPARSE_OPERATION_NON_TRANSPOSE` result on the same vectors. -/
theorem spvv_conjugate [CommRing α] [StarRing α] (nnz : Nat) (xval : Nat → α)
    (xind : Nat → Nat) (y : Nat → α) :
    (spvv opConjTranspose nnz xval xind y =
      ∑ i in Finset.range nnz, star (xval i) * y (xind i)) ∧
    ((∀ a : α, star a = a) →
      spvv opConjTranspose nnz xval xind y = spvv opNonTranspose nnz xval xind y) := by
  have hconj : spvv opConjTranspose nnz xval xind y =
      ∑ i in Finset.range nnz, star (xval i) * y (xind i) := by
    unfold spvv
    rw [foldl_range_add, zero_add]
    refine Finset.sum_congr rfl (fun i _ => ?_)
    simp [spvvTerm]
  refine ⟨hconj, fun h => ?_⟩
  rw [hconj]
  unfold spvv
  rw [foldl_range_add, zero_add]
  refine Finset.sum_congr rfl (fun i _ => ?_)
  simp [spvvTerm, opNonTranspose, opConjTranspose, h (xval i)]

/-- Witness for C10: over the real-valued type `ℤ` (trivial conjugation) the
conjugate-transpose dot product agrees with the non-transpose one. -/
theorem spvv_conjugate_witness :
    spvv (α := ℤ) opConjTranspose 2 (fun i => ([3, -4] : List ℤ).getD i 0)
        (fun i => ([1, 0] : List Nat).getD i 0)
        (fun i => ([5, 7] : List ℤ).getD i 0) =
      spvv opNonTranspose 2 (fun i => ([3, -4] : List ℤ).getD i 0)
        (fun i => ([1, 0] : List Nat).getD i 0)
        (fun i => ([5, 7] : List ℤ).getD i 0) :=
  (spvv_conjugate 2 (fun i => ([3, -4] : List ℤ).getD i 0)
    (fun i => ([1, 0] : List Nat).getD i 0)
    (fun i => ([5, 7] : List ℤ).getD i 0)).2 (fun _ => rfl)

/-- C3: after the documented protocol, the analysis pass stores in the
sparse descriptor the number of non-zero entries of the dense matrix `A`
(the value `hipsparseSpMatGetSize` then returns), and the convert pass fills
the target's index and value arrays with exactly the non-zero entries of
`A`, for each of the CSR, COO and CSC targets: reading the written arrays
back yields precisely the non-zeros of `A`. -/
theorem denseToSparse_spec [Zero α] [DecidableEq α] (m n : Nat)
    (A : Nat → Nat → α) :
    (denseToSparseAnalysisModel true true true true 0 0 m n A).2 =
        some ((denseNonzeros m n A).length) ∧
    csrDecode m (csrRowPtrOf m n A) (nzColIndOf m n A) (nzValOf m n A) =
        denseNonzeros m n A ∧
    cooDecode (nzRowIndOf m n A) (nzColIndOf m n A) (nzValOf m n A) =
        denseNonzeros m n A ∧
    (∀ t : Nat × Nat × α,
      t ∈ cscDecode n (cscColPtrOf m n A) (cscRowIndOf m n A) (cscValOf m n A) ↔
        t ∈ denseNonzeros m n A) := by
  refine ⟨?_, csrDecode_encoders m n A, cooDecode_encoders m n A, fun t => ?_⟩
  · simp [denseToSparseAnalysisModel, length_denseNonzeros]
  · rw [cscDecode_encoders, mem_denseNonzerosByCol, mem_denseNonzeros]

/-- C1: for every supported input (`opA`, `opB` in `{NON_TRANSPOSE,
TRANSPOSE}`, valid pointers, a buffer at least the queried size),
`hipsparseSDDMM` succeeds, keeps the sparsity pattern of `C` (row pointers,
column indices and entry count are unchanged, so positions outside the
pattern remain absent and represent `0`), and the matrix represented by the
result satisfies, at every coordinate `(i, j)` holding at most one stored
entry: `alpha * (op(A) * op(B))_(i,j) + beta * C_old_(i,j)` on the pattern
and `0` off it; moreover each stored position `p` lies in the row-pointer
slice of its row `rowOfC C p`. -/
theorem sddmm_stored_entries [CommRing α] (opA opB : Nat) (alpha beta : α)
    (k : Nat) (A B : Nat → Nat → α) (C : CsrMatrix α) (required bufSize : Nat)
    (i j p : Nat)
    (hopA : opA = opNonTranspose ∨ opA = opTranspose)
    (hopB : opB = opNonTranspose ∨ opB = opTranspose)
    (hbuf : required ≤ bufSize)
    (hwf0 : C.rowPtr 0 = 0) (hwfm : C.rowPtr C.rows = C.nnz) (hp : p < C.nnz)
    (hcard : (storedPositions C i j).card ≤ 1) :
    sddmmModel true true true true true true true opA opB alpha beta k A B C
        required bufSize = (HStatus.success, sddmm opA opB alpha beta k A B C) ∧
    (sddmm opA opB alpha beta k A B C).rowPtr = C.rowPtr ∧
    (sddmm opA opB alpha beta k A B C).colInd = C.colInd ∧
    (sddmm opA opB alpha beta k A B C).nnz = C.nnz ∧
    csrToMatrix (sddmm opA opB alpha beta k A B C) i j =
      (if (storedPositions C i j).Nonempty then
        alpha * sddmmDot opA opB k A B i j + beta * csrToMatrix C i j
      else 0) ∧
    (C.rowPtr (rowOfC C p) ≤ p ∧ p < C.rowPtr (rowOfC C p + 1)) := by
  have hmodel : sddmmModel true true true true true true true opA opB alpha
      beta k A B C required bufSize =
      (HStatus.success, sddmm opA opB alpha beta k A B C) := by
    rcases hopA with rfl | rfl <;> rcases hopB with rfl | rfl <;>
      simp [sddmmModel, opValid, opNonTranspose, opTranspose, opConjTranspose, hbuf]
  refine ⟨hmodel, rfl, rfl, rfl, ?_, ?_⟩
  · by_cases hne : (storedPositions C i j).Nonempty
    · rw [if_pos hne]
      obtain ⟨p₀, hp₀⟩ := hne
      have hcard1 : (storedPositions C i j).card = 1 :=
        le_antisymm hcard (Finset.card_pos.mpr ⟨p₀, hp₀⟩)
      obtain ⟨q, hq⟩ := Finset.card_eq_one.mp hcard1
      have hmem : q ∈ storedPositions C i j := by
        rw [hq]; exact Finset.mem_singleton_self q
      have hcoord : rowOfC C q = i ∧ C.colInd q = j :=
        (Finset.mem_filter.mp hmem).2
      unfold csrToMatrix
      rw [storedPositions_sddmm, hq, Finset.sum_singleton, Finset.sum_singleton]
      rw [show (sddmm opA opB alpha beta k A B C).val q =
          alpha * sddmmDot opA opB k A B (rowOfC C q) (C.colInd q) + beta * C.val q
        from rfl, hcoord.1, hcoord.2]
    · rw [if_neg hne]
      unfold csrToMatrix
      rw [storedPositions_sddmm, Finset.not_nonempty_iff_eq_empty.mp hne,
        Finset.sum_empty]
  · exact rowOfGo_spec C.rowPtr p C.rows 0 (by rw [hwf0]; exact Nat.zero_le p)
      (by rw [Nat.zero_add, hwfm]; exact hp)

/-- Witness for C1: a concrete 2x2 SDDMM over `ℤ` with `A = [[1,2],[3,4]]`,
`B = [[5,6],[7,8]]`, `C` holding entries `10` at `(0,0)` and `20` at
`(1,1)`, `alpha = 2`, `beta = 3`: the updated `(0,0)` value is
`2*(1*5+2*7) + 3*10 = 68`. -/
theorem sddmm_stored_entries_witness :
    (storedPositions (⟨2, 2, 2, fun r => min r 2, fun q => q,
        fun q => 10 * ((q : ℤ) + 1)⟩ : CsrMatrix ℤ) 0 0).card ≤ 1 ∧
    csrToMatrix (sddmm 0 0 2 3 2 (fun i l => 2 * (i : ℤ) + l + 1)
        (fun l j => 2 * (l : ℤ) + j + 5)
        ⟨2, 2, 2, fun r => min r 2, fun q => q, fun q => 10 * ((q : ℤ) + 1)⟩) 0 0 =
      (if (storedPositions (⟨2, 2, 2, fun r => min r 2, fun q => q,
          fun q => 10 * ((q : ℤ) + 1)⟩ : CsrMatrix ℤ) 0 0).Nonempty then
        2 * sddmmDot 0 0 2 (fun i l => 2 * (i : ℤ) + l + 1)
            (fun l j => 2 * (l : ℤ) + j + 5) 0 0 +
          3 * csrToMatrix (⟨2, 2, 2, fun r => min r 2, fun q => q,
            fun q => 10 * ((q : ℤ) + 1)⟩ : CsrMatrix ℤ) 0 0
      else 0) :=
  ⟨by decide,
    (sddmm_stored_entries 0 0 2 3 2 (fun i l => 2 * (i : ℤ) + l + 1)
      (fun l j => 2 * (l : ℤ) + j + 5)
      ⟨2, 2, 2, fun r => min r 2, fun q => q, fun q => 10 * ((q : ℤ) + 1)⟩
      0 0 0 0 0 (Or.inl rfl) (Or.inl rfl) (by decide) (by decide) (by decide)
      (by decide) (by decide)).2.2.2.2.1⟩

/-- C6: `hipsparseSDDMM` modifies only the values array of the sparse
matrix `C`: for every call (any pointer validity, operation values and
buffer size) the returned matrix keeps `C`'s dimensions, entry count, row
pointers and column indices, and differs from `C` at most in `val`; the
dense inputs `A` and `B` are inputs only. -/
theorem sddmm_frame [CommRing α] (handleOk alphaOk aOk bOk betaOk cOk bufOk : Bool)
    (opA opB : Nat) (alpha beta : α) (k : Nat) (A B : Nat → Nat → α)
    (C : CsrMatrix α) (required bufSize : Nat) :
    ((sddmmModel handleOk alphaOk aOk bOk betaOk cOk bufOk opA opB alpha beta k
        A B C required bufSize).2.rows = C.rows ∧
      (sddmmModel handleOk alphaOk aOk bOk betaOk cOk bufOk opA opB alpha beta k
        A B C required bufSize).2.cols = C.cols ∧
      (sddmmModel handleOk alphaOk aOk bOk betaOk cOk bufOk opA opB alpha beta k
        A B C required bufSize).2.nnz = C.nnz ∧
      (sddmmModel handleOk alphaOk aOk bOk betaOk cOk bufOk opA opB alpha beta k
        A B C required bufSize).2.rowPtr = C.rowPtr ∧
      (sddmmModel handleOk alphaOk aOk bOk betaOk cOk bufOk opA opB alpha beta k
        A B C required bufSize).2.colInd = C.colInd) ∧
    (sddmmModel handleOk alphaOk aOk bOk betaOk cOk bufOk opA opB alpha beta k
        A B C required bufSize).2 =
      { C with val := (sddmmModel handleOk alphaOk aOk bOk betaOk cOk bufOk opA
          opB alpha beta k A B C required bufSize).2.val } := by
  unfold sddmmModel
  split_ifs <;> exact ⟨⟨rfl, rfl, rfl, rfl, rfl⟩, rfl⟩

/-- Counterexample for C9: with an invalid handle and
`opA == HIPSPARSE_OPERATION_CONJUGATE_TRANSPOSE`, the call reports the
invalid pointer (`HIPSPARSE_STATUS_INVALID_VALUE`), not
`HIPSPARSE_STATUS_NOT_SUPPORTED`, so the claim's unconditional "whenever"
fails on inputs that also violate the pointer preconditions. -/
theorem sddmm_conjTranspose_counterexample :
    (sddmmModel (α := ℤ) false true true true true true true 2 0 1 1 0
        (fun _ _ => 0) (fun _ _ => 0) ⟨1, 1, 0, fun _ => 0, fun _ => 0, fun _ => 0⟩
        0 0).1 = HStatus.invalidValue ∧
    HStatus.invalidValue ≠ HStatus.notSupported := by
  exact ⟨rfl, by decide⟩

/-- C9 (amended): when the handle and all required pointer arguments are
valid and `opA`, `opB` are valid operation values, the three SDDMM routines
return `HIPSPARSE_STATUS_NOT_SUPPORTED` whenever `opA` or `opB` is
`HIPSPARSE_OPERATION_CONJUGATE_TRANSPOSE`, and in that case the sparse
matrix `C` is left unchanged. -/
theorem sddmm_conjTranspose_amended [CommRing α] (opA opB : Nat)
    (alpha beta : α) (k : Nat) (A B : Nat → Nat → α) (C : CsrMatrix α)
    (required bufSize : Nat) (hA : opValid opA) (hB : opValid opB)
    (hconj : opA = opConjTranspose ∨ opB = opConjTranspose) :
    (sddmmBufferSizeModel true true true true true true true opA opB required =
      (HStatus.notSupported, none)) ∧
    (sddmmPreprocessModel true true true true true true true opA opB required
      bufSize = HStatus.notSupported) ∧
    (sddmmModel true true true true true true true opA opB alpha beta k A B C
      required bufSize = (HStatus.notSupported, C)) := by
  have h7 : ((true && true && true && true && true && true && true) : Bool) = true := rfl
  refine ⟨?_, ?_, ?_⟩
  · unfold sddmmBufferSizeModel
    rw [if_pos h7, if_pos ⟨hA, hB⟩, if_pos hconj]
  · unfold sddmmPreprocessModel
    rw [if_pos h7, if_pos ⟨hA, hB⟩, if_pos hconj]
  · unfold sddmmModel
    rw [if_pos h7, if_pos ⟨hA, hB⟩, if_pos hconj]

/-- Witness for C9 (amended): a concrete conjugate-transpose call over `ℤ`. -/
theorem sddmm_conjTranspose_amended_witness :
    (sddmmBufferSizeModel true true true true true true true 2 0 6 =
      (HStatus.notSupported, none)) ∧
    (sddmmPreprocessModel true true true true true true true 2 0 6 9 =
      HStatus.notSupported) ∧
    (sddmmModel (α := ℤ) true true true true true true true 2 0 1 1 0
        (fun _ _ => 0) (fun _ _ => 0)
        ⟨1, 1, 0, fun _ => 0, fun _ => 0, fun _ => 0⟩ 6 9 =
      (HStatus.notSupported, ⟨1, 1, 0, fun _ => 0, fun _ => 0, fun _ => 0⟩)) :=
  sddmm_conjTranspose_amended 2 0 1 1 0 (fun _ _ => 0) (fun _ _ => 0)
    ⟨1, 1, 0, fun _ => 0, fun _ => 0, fun _ => 0⟩ 6 9 (by decide) (by decide)
    (Or.inl rfl)

/-- Counterexample for C4: the SpVV family does not follow a three-call
protocol: its documented call sequence has no analysis/preprocess phase, and
the headers declare no SpVV analysis routine. -/
theorem threeCall_counterexample :
    documentedCallOrder ApiFamily.spvv ≠
      [ApiPhase.querySize, ApiPhase.analysis, ApiPhase.compute] ∧
    (hipsparseHeaderDecls.filter (fun d =>
      decide (d.family = ApiFamily.spvv ∧ d.phase = ApiPhase.analysis))).length = 0 := by
  decide

/-- C4 (amended): the dense-to-sparse and SDDMM families follow the
documented three-call protocol (bufferSize, then analysis/preprocess, then
convert/compute), while the SpVV family follows a two-call protocol
(bufferSize, then compute); in every family each routine that takes the
user scratch buffer is a post-query phase, and the query-phase routine is
the one that writes the buffer size. -/
theorem threeCall_amended :
    documentedCallOrder ApiFamily.denseToSparse =
      [ApiPhase.querySize, ApiPhase.analysis, ApiPhase.compute] ∧
    documentedCallOrder ApiFamily.sddmm =
      [ApiPhase.querySize, ApiPhase.analysis, ApiPhase.compute] ∧
    documentedCallOrder ApiFamily.spvv = [ApiPhase.querySize, ApiPhase.compute] ∧
    (∀ d ∈ hipsparseHeaderDecls, d.takesBuffer = true → d.phase ≠ ApiPhase.querySize) ∧
    (∀ d ∈ hipsparseHeaderDecls, d.phase = ApiPhase.querySize → d.writesSize = true) ∧
    (∀ d ∈ hipsparseHeaderDecls, d.phase ≠ ApiPhase.querySize → d.takesBuffer = true) := by
  decide

/-- C5: a scratch buffer at least as large as the size written by the
corresponding bufferSize routine is sufficient for all subsequent
analysis/preprocess and convert/compute calls on the same operands: the
bufferSize models write exactly the library-internal requirement, and under
`required ≤ bufSize` no later call fails for lack of buffer space. -/
theorem buffer_sufficiency (required bufSize : Nat) (hbuf : required ≤ bufSize)
    (m n : Nat) (A : Nat → Nat → ℤ) (opA opB : Nat) (alpha beta : ℤ) (k : Nat)
    (Ad Bd : Nat → Nat → ℤ) (C : CsrMatrix ℤ) (nnz : Nat) (xval : Nat → ℤ)
    (xind : Nat → Nat) (y : Nat → ℤ) (hA : opValid opA) (hB : opValid opB)
    (hconj : ¬(opA = opConjTranspose ∨ opB = opConjTranspose)) :
    (denseToSparseBufferSizeModel true true true true required).2 = some required ∧
    (sddmmBufferSizeModel true true true true true true true opA opB required).2 =
      some required ∧
    (spvvBufferSizeModel true true true true true true required).2 = some required ∧
    (denseToSparseAnalysisModel true true true true required bufSize m n A).1 ≠
      HStatus.insufficientResources ∧
    denseToSparseConvertModel true true true true required bufSize ≠
      HStatus.insufficientResources ∧
    sddmmPreprocessModel true true true true true true true opA opB required
      bufSize ≠ HStatus.insufficientResources ∧
    (sddmmModel true true true true true true true opA opB alpha beta k Ad Bd C
      required bufSize).1 ≠ HStatus.insufficientResources ∧
    (spvvModel true true true true true true required bufSize opNonTranspose nnz
      xval xind y).1 ≠ HStatus.insufficientResources := by
  have h4 : ((true && true && true && true) : Bool) = true := rfl
  have h7 : ((true && true && true && true && true && true && true) : Bool) = true := rfl
  have h5 : ((true && true && true && true && true) : Bool) = true := rfl
  refine ⟨rfl, ?_, rfl, ?_, ?_, ?_, ?_, ?_⟩
  · unfold sddmmBufferSizeModel
    rw [if_pos h7, if_pos ⟨hA, hB⟩, if_neg hconj]
  · unfold denseToSparseAnalysisModel
    rw [if_pos h4, if_pos hbuf]
    simp
  · unfold denseToSparseConvertModel
    rw [if_pos h4, if_pos hbuf]
    simp
  · unfold sddmmPreprocessModel
    rw [if_pos h7, if_pos ⟨hA, hB⟩, if_neg hconj, if_pos hbuf]
    simp
  · unfold sddmmModel
    rw [if_pos h7, if_pos ⟨hA, hB⟩, if_neg hconj, if_pos hbuf]
    simp
  · unfold spvvModel
    rw [if_pos h5, if_pos rfl, if_pos hbuf]
    simp

/-- Witness for C5: concrete sizes `required = 4 ≤ 7 = bufSize` with concrete
operands over `ℤ`. -/
theorem buffer_sufficiency_witness :
    (denseToSparseBufferSizeModel true true true true 4).2 = some 4 ∧
    (sddmmBufferSizeModel true true true true true true true 0 1 4).2 = some 4 ∧
    (spvvBufferSizeModel true true true true true true 4).2 = some 4 ∧
    (denseToSparseAnalysisModel true true true true 4 7 1 1
        (fun _ _ => (1 : ℤ))).1 ≠ HStatus.insufficientResources ∧
    denseToSparseConvertModel true true true true 4 7 ≠
      HStatus.insufficientResources ∧
    sddmmPreprocessModel true true true true true true true 0 1 4 7 ≠
      HStatus.insufficientResources ∧
    (sddmmModel true true true true true true true 0 1 1 1 0 (fun _ _ => (0 : ℤ))
      (fun _ _ => 0) ⟨1, 1, 0, fun _ => 0, fun _ => 0, fun _ => 0⟩ 4 7).1 ≠
      HStatus.insufficientResources ∧
    (spvvModel true true true true true true 4 7 opNonTranspose 1
      (fun _ => (1 : ℤ)) (fun _ => 0) (fun _ => 1)).1 ≠
      HStatus.insufficientResources :=
  buffer_sufficiency 4 7 (by decide) 1 1 (fun _ _ => (1 : ℤ)) 0 1 1 1 0
    (fun _ _ => 0) (fun _ _ => 0) ⟨1, 1, 0, fun _ => 0, fun _ => 0, fun _ => 0⟩
    1 (fun _ => 1) (fun _ => 0) (fun _ => 1) (by decide) (by decide) (by decide)

/-- Counterexample for C7: the three headers declare eight API functions,
not nine. -/
theorem headerDecls_counterexample :
    (hipsparseHeaderDecls.map (fun d => d.declName)).Nodup ∧
    hipsparseHeaderDecls.length = 8 ∧ (8 : Nat) ≠ 9 := by
  refine ⟨by decide, rfl, by decide⟩

/-- C7 (amended): the supplied source contains only declarations of the
eight API functions (the dense-to-sparse bufferSize/analysis/convert
routines, the SDDMM bufferSize/preprocess/compute routines, and the SpVV
bufferSize/compute routines); no declared function has a body, so no kernel
logic, buffer-size computation, layout transform or numeric algorithm is
implemented in the given files. -/
theorem headerDecls_amended :
    hipsparseHeaderDecls.map (fun d => d.declName) =
      ["hipsparseDenseToSparse_bufferSize", "hipsparseDenseToSparse_analysis",
       "hipsparseDenseToSparse_convert", "hipsparseSDDMM_bufferSize",
       "hipsparseSDDMM_preprocess", "hipsparseSDDMM",
       "hipsparseSpVV_bufferSize", "hipsparseSpVV"] ∧
    (∀ d ∈ hipsparseHeaderDecls, d.hasBody = false) :=
  ⟨rfl, by decide⟩

/-- Counterexample for C8: an SDDMM call whose pointer arguments are all
valid but whose `opA` has an incorrect operation value returns
`HIPSPARSE_STATUS_INVALID_VALUE`, so `INVALID_VALUE` is not equivalent to a
pointer argument being invalid. -/
theorem status_invalidValue_counterexample :
    (sddmmBufferSizeModel true true true true true true true 7 0 5).1 =
      HStatus.invalidValue ∧
    ((true && true && true && true && true && true && true) : Bool) = true := by
  exact ⟨by decide, rfl⟩

/-- C8 (amended): a routine of the three families returns
`HIPSPARSE_STATUS_INVALID_VALUE` iff the handle or one of its required
pointer arguments is invalid or, for the SDDMM-family routines, the value of
`opA` or `opB` is not a valid operation; it returns
`HIPSPARSE_STATUS_SUCCESS` iff the pointers are valid, the configuration is
supported, and (for the buffer-taking routines) the scratch buffer is at
least the queried size. -/
theorem status_invalidValue_amended (pa pb pc pd pe pf pg px1 px2 px3 px4 px5
    px6 ct : Bool) (opA opB required bufSize m n : Nat) (A : Nat → Nat → ℤ)
    (alpha beta : ℤ) (k : Nat) (Ad Bd : Nat → Nat → ℤ) (C : CsrMatrix ℤ)
    (nnz : Nat) (xval : Nat → ℤ) (xind : Nat → Nat) (y : Nat → ℤ) :
    ((denseToSparseBufferSizeModel pa pb pc pd required).1 =
        HStatus.invalidValue ↔ (pa && pb && pc && pd) = false) ∧
    ((denseToSparseBufferSizeModel pa pb pc pd required).1 = HStatus.success ↔
        (pa && pb && pc && pd) = true) ∧
    ((denseToSparseAnalysisModel pa pb pc pd required bufSize m n A).1 =
        HStatus.invalidValue ↔ (pa && pb && pc && pd) = false) ∧
    ((denseToSparseAnalysisModel pa pb pc pd required bufSize m n A).1 =
        HStatus.success ↔ (pa && pb && pc && pd) = true ∧ required ≤ bufSize) ∧
    (denseToSparseConvertModel pa pb pc pd required bufSize =
        HStatus.invalidValue ↔ (pa && pb && pc && pd) = false) ∧
    (denseToSparseConvertModel pa pb pc pd required bufSize = HStatus.success ↔
        (pa && pb && pc && pd) = true ∧ required ≤ bufSize) ∧
    ((sddmmBufferSizeModel pa pb pc pd pe pf pg opA opB required).1 =
        HStatus.invalidValue ↔
      (pa && pb && pc && pd && pe && pf && pg) = false ∨
        ¬(opValid opA ∧ opValid opB)) ∧
    ((sddmmBufferSizeModel pa pb pc pd pe pf pg opA opB required).1 =
        HStatus.success ↔
      (pa && pb && pc && pd && pe && pf && pg) = true ∧ opValid opA ∧
        opValid opB ∧ ¬(opA = opConjTranspose ∨ opB = opConjTranspose)) ∧
    (sddmmPreprocessModel pa pb pc pd pe pf pg opA opB required bufSize =
        HStatus.invalidValue ↔
      (pa && pb && pc && pd && pe && pf && pg) = false ∨
        ¬(opValid opA ∧ opValid opB)) ∧
    (sddmmPreprocessModel pa pb pc pd pe pf pg opA opB required bufSize =
        HStatus.success ↔
      (pa && pb && pc && pd && pe && pf && pg) = true ∧ opValid opA ∧
        opValid opB ∧ ¬(opA = opConjTranspose ∨ opB = opConjTranspose) ∧
        required ≤ bufSize) ∧
    ((sddmmModel pa pb pc pd pe pf pg opA opB alpha beta k Ad Bd C required
        bufSize).1 = HStatus.invalidValue ↔
      (pa && pb && pc && pd && pe && pf && pg) = false ∨
        ¬(opValid opA ∧ opValid opB)) ∧
    ((sddmmModel pa pb pc pd pe pf pg opA opB alpha beta k Ad Bd C required
        bufSize).1 = HStatus.success ↔
      (pa && pb && pc && pd && pe && pf && pg) = true ∧ opValid opA ∧
        opValid opB ∧ ¬(opA = opConjTranspose ∨ opB = opConjTranspose) ∧
        required ≤ bufSize) ∧
    ((spvvBufferSizeModel px1 px2 px3 px4 px5 ct required).1 =
        HStatus.invalidValue ↔ (px1 && px2 && px3 && px4 && px5) = false) ∧
    ((spvvBufferSizeModel px1 px2 px3 px4 px5 ct required).1 =
        HStatus.success ↔ (px1 && px2 && px3 && px4 && px5) = true ∧ ct = true) ∧
    ((spvvModel px1 px2 px3 px4 px6 ct required bufSize opA nnz xval xind y).1 =
        HStatus.invalidValue ↔ (px1 && px2 && px3 && px4 && px6) = false) ∧
    ((spvvModel px1 px2 px3 px4 px6 ct required bufSize opA nnz xval xind y).1 =
        HStatus.success ↔
      (px1 && px2 && px3 && px4 && px6) = true ∧ ct = true ∧
        required ≤ bufSize) := by
  refine ⟨?_, ?_, ?_, ?_, ?_, ?_, ?_, ?_, ?_, ?_, ?_, ?_, ?_, ?_, ?_, ?_⟩ <;>
    first
      | (unfold denseToSparseBufferSizeModel; split_ifs <;> simp_all)
      | (unfold denseToSparseAnalysisModel; split_ifs <;> simp_all)
      | (unfold denseToSparseConvertModel; split_ifs <;> simp_all)
      | (unfold sddmmBufferSizeModel; split_ifs <;> simp_all)
      | (unfold sddmmPreprocessModel; split_ifs <;> simp_all)
      | (unfold sddmmModel; split_ifs <;> simp_all)
      | (unfold spvvBufferSizeModel; split_ifs <;> simp_all)
      | (unfold spvvModel; split_ifs <;> simp_all)

end HipsparseSpec
